import Mathlib

/-!
Shallow embedding of the `yt-api-videosum` crate (files `src/lib.rs`,
`src/main.rs`) and proofs about its specification claims.

Modelling conventions:
* `chrono::TimeDelta` values are whole seconds throughout the program, so a
  span is embedded as an `Int` of seconds (`TimeDelta::days(1) = 86400 s`,
  `num_days`/`num_hours`/... truncate towards zero, hence `Int.tdiv`).
* `chrono::DateTime<Utc>` values are embedded as `Int` seconds since the Unix
  epoch; `DateTime` comparison is integer comparison.
* JSON decoding is abstracted away: API responses are embedded as records
  that carry the already-decoded fields the program reads, together with the
  raw response text that `write_out` copies to the output file.
* The output `File` is embedded as `Option String`: `none` when no output
  sink is configured, `some c` when the file currently holds `c`.
-/

namespace YtApiVideosum

/-- The `TimeBase` enum of `lib.rs` (`_Seconds`, `Minutes`, `Hours`, `Days`). -/
inductive TimeBase where
  | seconds
  | minutes
  | hours
  | days
deriving DecidableEq

/-- Discriminant order of the Rust enum; `#[derive(PartialOrd)]` compares by
declaration order. -/
def TimeBase.rank : TimeBase → Nat
  | .seconds => 0
  | .minutes => 1
  | .hours => 2
  | .days => 3

instance : LE TimeBase := ⟨fun a b => a.rank ≤ b.rank⟩

instance (a b : TimeBase) : Decidable (a ≤ b) :=
  inferInstanceAs (Decidable (a.rank ≤ b.rank))

/-- The `plural` closure of `dissect_delta`: `""` for 1, `"s"` otherwise. -/
def plural (x : Int) : String := if x = 1 then "" else "s"

/-- Final stage of `dissect_delta` (`lib.rs` lines 299-307): with `s` the
remaining delta, emit the seconds component when `s` is positive or nothing
has been emitted yet. -/
def dissect_sec (out : String) (delta : Int) : String :=
  if 0 < delta ∨ out = "" then
    (if out ≠ "" then out ++ " " else out) ++ toString delta ++ " second" ++ plural delta
  else
    out

/-- Minutes stage of `dissect_delta` (`lib.rs` lines 292-297), with
`m = delta.num_minutes()` written inline. -/
def dissect_min (out : String) (delta : Int) (base : TimeBase) : String :=
  if 60 ≤ delta ∧ TimeBase.minutes ≤ base then
    dissect_sec
      ((if 0 < delta.tdiv 60 ∧ out ≠ "" then out ++ " " else out) ++
        toString (delta.tdiv 60) ++ " minute" ++ plural (delta.tdiv 60))
      (delta - 60 * delta.tdiv 60)
  else
    dissect_sec out delta

/-- Hours stage of `dissect_delta` (`lib.rs` lines 286-291), with
`h = delta.num_hours()` written inline. -/
def dissect_hour (out : String) (delta : Int) (base : TimeBase) : String :=
  if 3600 ≤ delta ∧ TimeBase.hours ≤ base then
    dissect_min
      ((if 0 < delta.tdiv 3600 ∧ out ≠ "" then out ++ " " else out) ++
        toString (delta.tdiv 3600) ++ " hour" ++ plural (delta.tdiv 3600))
      (delta - 3600 * delta.tdiv 3600) base
  else
    dissect_min out delta base

/-- `dissect_delta` of `lib.rs` (lines 271-308): `out` starts empty, the days
stage (lines 281-285, `d = delta.num_days()` inline; no space is prepended
there since `out` is still empty) runs first, then hours, minutes, seconds. -/
def dissect_delta (delta : Int) (base : TimeBase) : String :=
  if 86400 ≤ delta ∧ TimeBase.days ≤ base then
    dissect_hour
      (toString (delta.tdiv 86400) ++ " day" ++ plural (delta.tdiv 86400))
      (delta - 86400 * delta.tdiv 86400) base
  else
    dissect_hour "" delta base

/-- The numeric skeleton of `dissect_delta`: the (days, hours, minutes,
seconds) counts extracted by the four stages, in order, with the same guards
as the rendering code (a stage that does not fire extracts 0). -/
def dissect_components (delta : Int) (base : TimeBase) : Int × Int × Int × Int :=
  let d := if 86400 ≤ delta ∧ TimeBase.days ≤ base then delta.tdiv 86400 else 0
  let r1 := delta - 86400 * d
  let h := if 3600 ≤ r1 ∧ TimeBase.hours ≤ base then r1.tdiv 3600 else 0
  let r2 := r1 - 3600 * h
  let m := if 60 ≤ r2 ∧ TimeBase.minutes ≤ base then r2.tdiv 60 else 0
  let s := r2 - 60 * m
  (d, h, m, s)

/-! ### Spec-side rendering, written from the spec's words (§4.5):
components `"<count> <unit-name>"` pluralized exactly when the count is not
1, zero-valued non-terminal components omitted, the seconds component
emitted when nonzero or when every larger component was zero, all joined by
a single space. Used to state the refinement claim about the day-ceiling
text. -/

/-- One rendered component: `"<count> <unit-name>"`, pluralized when the
count is not 1. -/
def unit_text (c : Int) (name : String) : String :=
  toString c ++ " " ++ name ++ plural c

/-- Components joined by a single space. -/
def joinSpace : List String → String
  | [] => ""
  | [x] => x
  | x :: xs => x ++ " " ++ joinSpace xs

/-- Seconds step of the spec rendering: append the seconds component when it
is nonzero or no larger component was produced, then join. -/
def spec_render_from_sec (ps : List String) (s : Int) : String :=
  joinSpace (if s ≠ 0 ∨ ps = [] then ps ++ [unit_text s "second"] else ps)

/-- Minutes step of the spec rendering: greedy minute count of the remaining
span, omitted when zero. -/
def spec_render_from_min (ps : List String) (r : Int) : String :=
  spec_render_from_sec
    (ps ++ (if r.tdiv 60 ≠ 0 then [unit_text (r.tdiv 60) "minute"] else [])) (r.tmod 60)

/-- Hours step of the spec rendering. -/
def spec_render_from_hour (ps : List String) (r : Int) : String :=
  spec_render_from_min
    (ps ++ (if r.tdiv 3600 ≠ 0 then [unit_text (r.tdiv 3600) "hour"] else [])) (r.tmod 3600)

/-- Spec rendering with ceiling = days: greedy day/hour/minute/second counts,
zero-valued non-terminal components omitted, seconds emitted when nonzero or
when all larger components were zero, joined by single spaces. -/
def spec_render_days (t : Int) : String :=
  spec_render_from_hour
    (if t.tdiv 86400 ≠ 0 then [unit_text (t.tdiv 86400) "day"] else []) (t.tmod 86400)

/-! ### The aggregation pipeline of `run` (`lib.rs` lines 72-235) -/

/-- The `Config` struct of `lib.rs` (lines 18-24). The network-only fields
`key` and `channel_name` are omitted (they only shape request URLs); the
optional output `File` is embedded as a flag saying whether a sink is
configured. -/
structure Config where
  start_date : Option Int
  end_date : Option Int
  output : Bool
deriving DecidableEq

/-- The output file before the first write: `main.rs` opens it with
`File::create`, so it starts empty; `none` when no sink is configured. -/
def initFile (cfg : Config) : Option String :=
  if cfg.output then some "" else none

/-- `write_out` of `lib.rs` (lines 255-262): when a sink is configured, the
file is truncated (`set_len(0)`, `rewind`) and rewritten with the new item,
replacing its whole previous content; otherwise nothing happens. -/
def write_out (out : Option String) (item : String) : Option String :=
  match out with
  | some _ => some item
  | none => none

/-- One playlist item as consumed by the pagination loop of `run`
(`lib.rs` lines 118-146): the decoded `snippet.publishedAt` timestamp
(epoch seconds) and `snippet.resourceId.videoId`. -/
structure Item where
  publishedAt : Int
  videoId : String
deriving DecidableEq

/-- One decoded `playlistItems` response (`lib.rs` lines 110-158): the raw
response text (forwarded to the output file), the `items` array, the
optional `nextPageToken` and `pageInfo.totalResults`. The continuation
token type is a parameter: the loop never inspects a token, it only hands
it back to the next request. -/
structure Page (τ : Type) where
  raw : String
  items : List Item
  nextPageToken : Option τ
  totalResults : Nat

/-- The decoded channel lookup response (`lib.rs` lines 78-94):
`pageInfo.totalResults` and the optional
`items[0].contentDetails.relatedPlaylists.uploads` field. -/
structure ChannelResponse where
  raw : String
  totalResults : Nat
  uploads : Option String

/-- One decoded `videos` response (`lib.rs` lines 174-197). -/
structure VideoResponse where
  raw : String
  publishedAt : Int
  title : String
  duration : String

/-- The decoded responses the API serves during one run: the channel lookup
response, one `playlistItems` page per continuation token (`none` asks for
the first page) and one `videos` response per video id. -/
structure Api (τ : Type) where
  channel : ChannelResponse
  pages : Option τ → Page τ
  video : String → VideoResponse

/-- The playlist-id prefix substitution of `run` (`lib.rs` lines 96-99):
replace the default two-character `"UU"` prefix with `"UULF"` to get the
public-uploads-only view of the collection. -/
def playlist_id_pub (playlist_id : String) : String :=
  "UULF" ++ playlist_id.drop 2

/-- The start-bound test of the pagination loop (`lib.rs` lines 129-133):
skip the item when a start bound is configured and the publish timestamp is
strictly earlier. -/
def isBefore (bound : Option Int) (date : Int) : Bool :=
  match bound with
  | some start => decide (date < start)
  | none => false

/-- The end-bound test of the pagination loop (`lib.rs` lines 134-138):
skip the item when an end bound is configured and the publish timestamp is
strictly later. -/
def isAfter (bound : Option Int) (date : Int) : Bool :=
  match bound with
  | some e => decide (e < date)
  | none => false

/-- The per-item body of the pagination loop (`lib.rs` lines 118-146):
filtered items are skipped (`continue`), surviving items push their video
id onto the accumulator. -/
def processItems (start_date end_date : Option Int) (acc : List String) :
    List Item → List String
  | [] => acc
  | e :: rest =>
    if isBefore start_date e.publishedAt then
      processItems start_date end_date acc rest
    else if isAfter end_date e.publishedAt then
      processItems start_date end_date acc rest
    else
      processItems start_date end_date (acc ++ [e.videoId]) rest

/-- The pagination loop of `run` (`lib.rs` lines 104-163), fuel-indexed
(the Rust `loop` is unbounded; each theorem supplies enough fuel; one unit
of fuel is one page fetch). After processing a page the loop stops when the
page's item array was empty, or the response carried no continuation token,
or the number of collected ids has reached the reported total. The first
component is `none` when the fuel ran out before the loop's own exit
conditions fired; the second component is the output file. -/
def paginate {τ : Type} (api : Api τ) (cfg : Config) :
    Nat → Option τ → List String → Option String → Option (List String) × Option String
  | 0, _, _, file => (none, file)
  | fuel + 1, tok, video_ids, file =>
    let page := api.pages tok
    let file2 := write_out file page.raw
    let ids := processItems cfg.start_date cfg.end_date video_ids page.items
    if page.items.isEmpty || page.nextPageToken.isNone ||
        decide (page.totalResults ≤ ids.length) then
      (some ids, file2)
    else
      paginate api cfg fuel page.nextPageToken ids file2

/-- Decimal digits to a number (most significant first). -/
def digitsToNat (ds : List Char) : Nat :=
  ds.foldl (fun acc c => 10 * acc + (c.toNat - 48)) 0

/-- Modelled from the spec: one optional duration component
`"<digits><designator>"`. When the input starts with one or more digits
followed by the expected designator, consume them and return the magnitude;
otherwise leave the input untouched. -/
def tryComp (desig : Char) (cs : List Char) : Option Nat × List Char :=
  match cs.span (fun c => c.isDigit) with
  | ([], _) => (none, cs)
  | (_, []) => (none, cs)
  | (ds, r :: rest) => if r = desig then (some (digitsToNat ds), rest) else (none, cs)

/-- Modelled from the spec: `src/lib.rs` declares `mod period;`, but the
file `src/period.rs` holding `parse_delta` is not among the given sources.
Per spec §4.4 the duration grammar is the period designator `P`, an
optional days component, the time designator `T`, then optional hours,
minutes and seconds components, in this order (e.g. `"P0DT1H2M3S"`,
`"PT45S"`); each present component contributes magnitude × unit-seconds
(day 86400, hour 3600, minute 60, second 1); absence of every recognized
component, or any malformed remainder, is a parse failure returning no
value — never a panic, never a default of zero. -/
def parse_delta (s : String) : Option Int :=
  match s.toList with
  | 'P' :: cs =>
    match tryComp 'D' cs with
    | (d, cs2) =>
      match cs2 with
      | 'T' :: cs3 =>
        match tryComp 'H' cs3 with
        | (h, cs4) =>
          match tryComp 'M' cs4 with
          | (m, cs5) =>
            match tryComp 'S' cs5 with
            | (sec, cs6) =>
              if cs6 = [] ∧ (d.isSome ∨ h.isSome ∨ m.isSome ∨ sec.isSome) then
                some ((86400 * d.getD 0 + 3600 * h.getD 0 + 60 * m.getD 0 +
                  sec.getD 0 : Nat) : Int)
              else
                none
      | _ => none
  | _ => none

/-- The `Video` struct of `lib.rs` (lines 26-33); the `DateTime<Utc>` field
is epoch seconds, `delta` is the parsed span in seconds. -/
structure Video where
  date : Int
  title : String
  id : String
  duration : String
  delta : Int
deriving DecidableEq

/-- `Video::new` of `lib.rs` (lines 34-51): parse the duration string; on
failure return the error of line 42 instead of a record. -/
def Video.new (date : Int) (title : String) (id : String) (duration : String) :
    Except String Video :=
  match parse_delta duration with
  | none => Except.error "Could not parse 'duration' field"
  | some delta => Except.ok ⟨date, title, id, duration, delta⟩

/-- The per-video metadata stage of `run` (`lib.rs` lines 169-212): for
each collected id in order, forward the raw response to the sink, decode
the fields, construct a `Video`; a failing construction aborts the stage
at once (the `?` on line 205). -/
def fetchVideos {τ : Type} (api : Api τ) :
    List String → Option String → Except String (List Video) × Option String
  | [], file => (Except.ok [], file)
  | id :: rest, file =>
    let vr := api.video id
    let file2 := write_out file vr.raw
    match Video.new vr.publishedAt vr.title id vr.duration with
    | Except.error e => (Except.error e, file2)
    | Except.ok v =>
      match fetchVideos api rest file2 with
      | (Except.ok vs, file3) => (Except.ok (v :: vs), file3)
      | (Except.error e, file3) => (Except.error e, file3)

/-- Gregorian calendar date for a count of days since 1970-01-01
(the standard civil-from-days conversion). -/
def civilFromDays (z0 : Int) : Int × Int × Int :=
  let z := z0 + 719468
  let era := z.fdiv 146097
  let doe := z - era * 146097
  let yoe := (doe - doe.ediv 1460 + doe.ediv 36524 - doe.ediv 146096).ediv 365
  let y := yoe + era * 400
  let doy := doe - (365 * yoe + yoe.ediv 4 - yoe.ediv 100)
  let mp := (5 * doy + 2).ediv 153
  let d := doy - (153 * mp + 2).ediv 5 + 1
  let m := mp + (if mp < 10 then 3 else -9)
  (if m ≤ 2 then y + 1 else y, m, d)

/-- Two-digit zero-padded rendering (month, day, hour, minute, second). -/
def pad2 (n : Int) : String :=
  if n < 10 then "0" ++ toString n else toString n

/-- Four-digit zero-padded rendering (year). -/
def pad4 (n : Int) : String :=
  if n < 10 then "000" ++ toString n
  else if n < 100 then "00" ++ toString n
  else if n < 1000 then "0" ++ toString n
  else toString n

/-- `chrono`'s `to_rfc3339_opts(SecondsFormat::Secs, true)` on a UTC
timestamp of whole seconds: `"YYYY-MM-DDTHH:MM:SSZ"`. -/
def toRfc3339Secs (t : Int) : String :=
  let days := t.fdiv 86400
  let secs := t - 86400 * days
  let ymd := civilFromDays days
  pad4 ymd.1 ++ "-" ++ pad2 ymd.2.1 ++ "-" ++ pad2 ymd.2.2 ++ "T" ++
    pad2 (secs.ediv 3600) ++ ":" ++ pad2 ((secs.ediv 60).emod 60) ++ ":" ++
    pad2 (secs.emod 60) ++ "Z"

/-- The CSV header line written by `run` (`lib.rs` line 218). -/
def csvHeader : String := "#publishedAt,title,videoId,duration,duration_seconds"

/-- `impl Display for Video` (`lib.rs` lines 52-62): the five comma-joined
fields of one CSV data row — RFC3339 UTC timestamp at second precision with
`Z`, the raw title copied verbatim, the video id, the raw duration string,
and the span's second count. -/
def csvRow (v : Video) : String :=
  toRfc3339Secs v.date ++ "," ++ v.title ++ "," ++ v.id ++ "," ++ v.duration ++ "," ++
    toString v.delta

/-- Lines joined by `"\n"` terminators (Rust `writeln!` appends one `\n`
per line). -/
def joinLines : List String → String
  | [] => ""
  | line :: rest => line ++ "\n" ++ joinLines rest

/-- The CSV written on success (`lib.rs` lines 215-222): the header line
then one line per video, in order. -/
def csvContent (videos : List Video) : String :=
  joinLines (csvHeader :: videos.map csvRow)

/-- The aggregation fold of `run` (`lib.rs` line 227): sum of all spans,
starting from `TimeDelta::zero()`. -/
def totalOf (videos : List Video) : Int :=
  videos.foldl (fun acc v => acc + v.delta) 0

/-- The run summary printed by `run` (`lib.rs` lines 228-232): the raw
second count, and additionally — when the total is at least one minute —
the mixed-unit rendering, with ceiling `TimeBase::Hours` (line 230). -/
def summaryOf (total : Int) : String :=
  "Sum total: " ++ toString total ++ " seconds" ++
    (if 60 ≤ total then ", or " ++ dissect_delta total TimeBase.hours else "")

/-- Overall result of one `run`: early no-op exit after an ambiguous
channel lookup (warning, `Ok(())`, `lib.rs` lines 90-93), success with its
printed summary, failure with its error message, or fuel exhaustion (a
model artifact: the unbounded Rust `loop` out-ran the supplied fuel). -/
inductive RunOutcome where
  | noop (count : Nat)
  | success (summary : String)
  | failure (msg : String)
  | outOfFuel
deriving DecidableEq

/-- `run` of `lib.rs` (lines 72-235) over the decoded responses: write the
channel response to the sink; require exactly one lookup result (anything
else is a warning no-op); extract the uploads id; paginate; fetch the video
metadata; on success rewrite the sink with the CSV and build the summary.
The second component is the final content of the output file. -/
def run {τ : Type} (api : Api τ) (cfg : Config) (fuel : Nat) :
    RunOutcome × Option String :=
  let file := write_out (initFile cfg) api.channel.raw
  match api.channel.totalResults with
  | 1 =>
    match api.channel.uploads with
    | none => (RunOutcome.failure "Could not find 'uploads' id field", file)
    | some _pid =>
      match paginate api cfg fuel none [] file with
      | (none, file2) => (RunOutcome.outOfFuel, file2)
      | (some ids, file2) =>
        match fetchVideos api ids file2 with
        | (Except.error e, file3) => (RunOutcome.failure e, file3)
        | (Except.ok videos, file3) =>
          (RunOutcome.success (summaryOf (totalOf videos)),
            match file3 with
            | some _ => some (csvContent videos)
            | none => none)
  | n => (RunOutcome.noop n, file)

/-- A synthetic paginated source for the termination claim: `n` items in
pages of size `p`; page `k` holds the items with indices
`k*p, ..., min ((k+1)*p) n - 1`, the continuation token is the next page
index, and `totalResults` reports `n`. -/
def syntheticPages (n p : Nat) (tok : Option Nat) : Page Nat :=
  ⟨toString (tok.getD 0),
    (List.range' (tok.getD 0 * p) (min p (n - tok.getD 0 * p))).map
      (fun i => ⟨0, toString i⟩),
    if (tok.getD 0 + 1) * p < n then some (tok.getD 0 + 1) else none,
    n⟩

/-- A synthetic API around `syntheticPages` (channel and video responses
are irrelevant to the pagination loop). -/
def syntheticApi (n p : Nat) : Api Nat :=
  ⟨⟨"channel", 1, some "UUch"⟩, syntheticPages n p, fun vid => ⟨"video", 0, vid, "PT1S"⟩⟩

/-- The video ids of the first `n` synthetic items. -/
def idsUpTo (n : Nat) : List String :=
  (List.range n).map toString

/-- A one-video API whose video metadata carries an unparseable duration. -/
def apiBadDuration : Api Nat :=
  ⟨⟨"chraw", 1, some "UUpid"⟩, fun _ => ⟨"praw", [⟨0, "vid0"⟩], none, 1⟩,
    fun _ => ⟨"vraw", 5, "title0", "XYZ"⟩⟩

/-- A one-video API that completes successfully. -/
def apiGood : Api Nat :=
  ⟨⟨"chraw", 1, some "UUpid"⟩, fun _ => ⟨"praw", [⟨0, "vid0"⟩], none, 1⟩,
    fun _ => ⟨"vraw", 86400, "title0", "PT2M30S"⟩⟩

/-- An API whose channel lookup reports zero results. -/
def apiZeroResults : Api Nat :=
  ⟨⟨"chraw", 0, none⟩, fun _ => ⟨"praw", [], none, 0⟩, fun _ => ⟨"vraw", 0, "t", "PT1S"⟩⟩

/-! ### Arithmetic helpers for truncating division (Rust `/` on `i64`) -/

lemma tdiv_eq_zero_of_lt {a b : Int} (h0 : 0 ≤ a) (h : a < b) : a.tdiv b = 0 := by
  rw [Int.tdiv_eq_ediv h0 (le_of_lt (lt_of_le_of_lt h0 h))]
  exact Int.ediv_eq_zero_of_lt h0 h

lemma one_le_tdiv {a b : Int} (hb : 0 < b) (h : b ≤ a) : 1 ≤ a.tdiv b := by
  have h0 : 0 ≤ a := le_trans (le_of_lt hb) h
  rw [Int.tdiv_eq_ediv h0 (le_of_lt hb)]
  exact (Int.le_ediv_iff_mul_le hb).2 (by simpa using h)

lemma sub_tdiv_eq_tmod (a b : Int) : a - b * a.tdiv b = a.tmod b := by
  have h := Int.tmod_add_tdiv a b
  linarith

lemma tmod_eq_self_of_lt {a b : Int} (h0 : 0 ≤ a) (h : a < b) : a.tmod b = a := by
  rw [Int.tmod_eq_emod h0 (le_of_lt (lt_of_le_of_lt h0 h))]
  exact Int.emod_eq_of_lt h0 h

example : dissect_delta 0 TimeBase.days = "0 seconds" := by decide
example : dissect_delta 1 TimeBase.days = "1 second" := by decide
example : dissect_delta 61 TimeBase.days = "1 minute 1 second" := by decide
example : dissect_delta 3661 TimeBase.days = "1 hour 1 minute 1 second" := by decide
example : dissect_delta 90061 TimeBase.days = "1 day 1 hour 1 minute 1 second" := by decide
example : dissect_delta 604800 TimeBase.days = "7 days" := by decide
example : dissect_delta 86400 TimeBase.hours = "24 hours" := by decide
example : dissect_delta (-5) TimeBase.days = "-5 seconds" := by decide

/-- C2: for every non-negative integer second count `t` and every largest-unit
ceiling, the mixed-unit decomposition extracted by `dissect_delta` (its
numeric skeleton `dissect_components`) round-trips: summing each component
count times its unit's second value (day=86400, hour=3600, minute=60,
second=1) yields exactly `t`. -/
theorem dissect_components_roundtrip (t : Int) (_ht : 0 ≤ t) (base : TimeBase) :
    86400 * (dissect_components t base).1 + 3600 * (dissect_components t base).2.1 +
      60 * (dissect_components t base).2.2.1 + (dissect_components t base).2.2.2 = t := by
  simp only [dissect_components]
  split_ifs <;> ring

/-- Witness for C2 at `t = 90061`, ceiling = days. -/
theorem dissect_components_roundtrip_witness :
    0 ≤ (90061 : Int) ∧
      86400 * (dissect_components 90061 TimeBase.days).1 +
        3600 * (dissect_components 90061 TimeBase.days).2.1 +
        60 * (dissect_components 90061 TimeBase.days).2.2.1 +
        (dissect_components 90061 TimeBase.days).2.2.2 = 90061 :=
  ⟨by decide, dissect_components_roundtrip 90061 (by decide) TimeBase.days⟩

/-- C9: for every strictly negative second count `t` and every largest-unit
ceiling, `dissect_delta` emits no day, hour or minute component and renders
exactly `"<t> seconds"` (negative count, plural unit name). -/
theorem dissect_delta_neg (t : Int) (ht : t < 0) (base : TimeBase) :
    dissect_delta t base = toString t ++ " seconds" := by
  have h1 : ¬((86400 : Int) ≤ t ∧ TimeBase.days ≤ base) := fun h => absurd h.1 (by omega)
  have h2 : ¬((3600 : Int) ≤ t ∧ TimeBase.hours ≤ base) := fun h => absurd h.1 (by omega)
  have h3 : ¬((60 : Int) ≤ t ∧ TimeBase.minutes ≤ base) := fun h => absurd h.1 (by omega)
  rw [dissect_delta, if_neg h1, dissect_hour, if_neg h2, dissect_min, if_neg h3,
    dissect_sec]
  rw [if_pos (Or.inr rfl), plural, if_neg (by omega : ¬ t = 1)]
  have hs : (" second" : String) ++ "s" = " seconds" := rfl
  simp [String.append_assoc, hs]

/-- Witness for C9 at `t = -5`, ceiling = days. -/
theorem dissect_delta_neg_witness :
    dissect_delta (-5) TimeBase.days = toString (-5 : Int) ++ " seconds" :=
  dissect_delta_neg (-5) (by decide) TimeBase.days

example : spec_render_days 90061 = "1 day 1 hour 1 minute 1 second" := by decide
example : spec_render_days 0 = "0 seconds" := by decide
example : spec_render_days 604800 = "7 days" := by decide

/-! ### Helper lemmas for the rendering refinement -/

lemma joinSpace_append_single (ps : List String) (x : String) :
    joinSpace (ps ++ [x]) = if ps = [] then x else joinSpace ps ++ " " ++ x := by
  induction ps with
  | nil => rfl
  | cons a ps ih =>
    cases ps with
    | nil => rfl
    | cons b ps =>
      rw [List.cons_append]
      show a ++ " " ++ joinSpace ((b :: ps) ++ [x]) = _
      rw [ih, if_neg (by simp), if_neg (by simp)]
      show _ = a ++ " " ++ joinSpace (b :: ps) ++ " " ++ x
      simp [String.append_assoc]

lemma joinSpace_ne_empty (ps : List String) (hne : ps ≠ []) (hp : ∀ p ∈ ps, p ≠ "") :
    joinSpace ps ≠ "" := by
  match ps with
  | [x] => exact hp x (by simp)
  | x :: y :: ys =>
    intro hc
    have hlen := congrArg String.length hc
    rw [show joinSpace (x :: y :: ys) = x ++ " " ++ joinSpace (y :: ys) from rfl] at hlen
    have hsp : (" " : String).length = 1 := rfl
    simp [String.length_append, hsp] at hlen

lemma unit_text_ne_empty (c : Int) (name : String) : unit_text c name ≠ "" := by
  intro hc
  have hlen := congrArg String.length hc
  have hsp : (" " : String).length = 1 := rfl
  simp [unit_text, String.length_append, hsp] at hlen

lemma unit_text_eq (c : Int) (name2 : String) :
    toString c ++ (" " ++ name2) ++ plural c = unit_text c name2 := by
  simp [unit_text, String.append_assoc]

lemma parts_ne_empty {ps : List String} (hp : ∀ p ∈ ps, p ≠ "") (c : Int) (name : String) :
    ∀ p ∈ ps ++ [unit_text c name], p ≠ "" := by
  intro p hmem
  rcases List.mem_append.1 hmem with h | h
  · exact hp p h
  · rw [List.mem_singleton.1 h]
    exact unit_text_ne_empty c name

lemma dissect_sec_spec (ps : List String) (s : Int) (hs : 0 ≤ s)
    (hp : ∀ p ∈ ps, p ≠ "") :
    dissect_sec (joinSpace ps) s = spec_render_from_sec ps s := by
  by_cases hps : ps = []
  · subst hps
    have hy : (" " : String) ++ "second" = " second" := rfl
    simp [dissect_sec, spec_render_from_sec, joinSpace, unit_text, String.append_assoc, hy]
  · have hne := joinSpace_ne_empty ps hps hp
    rw [dissect_sec, spec_render_from_sec]
    by_cases hs0 : s = 0
    · subst hs0
      rw [if_neg (by simp [hne]), if_neg (by simp [hps])]
    · have hpos : 0 < s := lt_of_le_of_ne hs (Ne.symm hs0)
      rw [if_pos (Or.inl hpos), if_pos (Or.inl hs0), if_pos hne,
        joinSpace_append_single, if_neg hps]
      have hy : (" " : String) ++ "second" = " second" := rfl
      simp [unit_text, String.append_assoc, hy]

lemma dissect_min_spec (ps : List String) (r : Int) (hr : 0 ≤ r)
    (hp : ∀ p ∈ ps, p ≠ "") :
    dissect_min (joinSpace ps) r TimeBase.days = spec_render_from_min ps r := by
  rw [dissect_min, spec_render_from_min]
  by_cases hc : 60 ≤ r
  · rw [if_pos ⟨hc, by decide⟩]
    have hm1 : 1 ≤ r.tdiv 60 := one_le_tdiv (by norm_num) hc
    rw [if_pos (by omega : r.tdiv 60 ≠ 0)]
    by_cases hps : ps = []
    · subst hps
      rw [if_neg (by simp [joinSpace])]
      have hx : joinSpace [] ++ toString (r.tdiv 60) ++ " minute" ++ plural (r.tdiv 60) =
          joinSpace [unit_text (r.tdiv 60) "minute"] := by
        have hy : (" " : String) ++ "minute" = " minute" := rfl
        simp [joinSpace, unit_text, String.append_assoc, hy]
      rw [hx, sub_tdiv_eq_tmod]
      exact dissect_sec_spec ([] ++ [unit_text (r.tdiv 60) "minute"]) _
        (Int.tmod_nonneg _ hr) (parts_ne_empty (by simp) _ _)
    · have hne := joinSpace_ne_empty ps hps hp
      rw [if_pos ⟨by omega, hne⟩]
      have hx : joinSpace ps ++ " " ++ toString (r.tdiv 60) ++ " minute" ++ plural (r.tdiv 60) =
          joinSpace (ps ++ [unit_text (r.tdiv 60) "minute"]) := by
        rw [joinSpace_append_single, if_neg hps]
        have hy : (" " : String) ++ "minute" = " minute" := rfl
        simp [unit_text, String.append_assoc, hy]
      rw [hx, sub_tdiv_eq_tmod]
      exact dissect_sec_spec _ _ (Int.tmod_nonneg _ hr) (parts_ne_empty hp _ _)
  · rw [if_neg (fun h => hc h.1)]
    have h0 : r.tdiv 60 = 0 := tdiv_eq_zero_of_lt hr (by omega)
    rw [if_neg (by simp [h0]), tmod_eq_self_of_lt hr (by omega), List.append_nil]
    exact dissect_sec_spec ps r hr hp

lemma dissect_hour_spec (ps : List String) (r : Int) (hr : 0 ≤ r)
    (hp : ∀ p ∈ ps, p ≠ "") :
    dissect_hour (joinSpace ps) r TimeBase.days = spec_render_from_hour ps r := by
  rw [dissect_hour, spec_render_from_hour]
  by_cases hc : 3600 ≤ r
  · rw [if_pos ⟨hc, by decide⟩]
    have hh1 : 1 ≤ r.tdiv 3600 := one_le_tdiv (by norm_num) hc
    rw [if_pos (by omega : r.tdiv 3600 ≠ 0)]
    by_cases hps : ps = []
    · subst hps
      rw [if_neg (by simp [joinSpace])]
      have hx : joinSpace [] ++ toString (r.tdiv 3600) ++ " hour" ++ plural (r.tdiv 3600) =
          joinSpace [unit_text (r.tdiv 3600) "hour"] := by
        have hy : (" " : String) ++ "hour" = " hour" := rfl
        simp [joinSpace, unit_text, String.append_assoc, hy]
      rw [hx, sub_tdiv_eq_tmod]
      exact dissect_min_spec ([] ++ [unit_text (r.tdiv 3600) "hour"]) _
        (Int.tmod_nonneg _ hr) (parts_ne_empty (by simp) _ _)
    · have hne := joinSpace_ne_empty ps hps hp
      rw [if_pos ⟨by omega, hne⟩]
      have hx : joinSpace ps ++ " " ++ toString (r.tdiv 3600) ++ " hour" ++ plural (r.tdiv 3600) =
          joinSpace (ps ++ [unit_text (r.tdiv 3600) "hour"]) := by
        rw [joinSpace_append_single, if_neg hps]
        have hy : (" " : String) ++ "hour" = " hour" := rfl
        simp [unit_text, String.append_assoc, hy]
      rw [hx, sub_tdiv_eq_tmod]
      exact dissect_min_spec _ _ (Int.tmod_nonneg _ hr) (parts_ne_empty hp _ _)
  · rw [if_neg (fun h => hc h.1)]
    have h0 : r.tdiv 3600 = 0 := tdiv_eq_zero_of_lt hr (by omega)
    rw [if_neg (by simp [h0]), tmod_eq_self_of_lt hr (by omega), List.append_nil]
    exact dissect_min_spec ps r hr hp

lemma dissect_delta_days_eq_spec (t : Int) (ht : 0 ≤ t) :
    dissect_delta t TimeBase.days = spec_render_days t := by
  rw [dissect_delta, spec_render_days]
  by_cases hc : 86400 ≤ t
  · rw [if_pos ⟨hc, by decide⟩]
    have hd1 : 1 ≤ t.tdiv 86400 := one_le_tdiv (by norm_num) hc
    rw [if_pos (by omega : t.tdiv 86400 ≠ 0)]
    have hx : toString (t.tdiv 86400) ++ " day" ++ plural (t.tdiv 86400) =
        joinSpace [unit_text (t.tdiv 86400) "day"] := by
      have hy : (" " : String) ++ "day" = " day" := rfl
      simp [joinSpace, unit_text, String.append_assoc, hy]
    rw [hx, sub_tdiv_eq_tmod]
    have hmain := dissect_hour_spec ([] ++ [unit_text (t.tdiv 86400) "day"])
      (t.tmod 86400) (Int.tmod_nonneg _ ht) (parts_ne_empty (by simp) _ _)
    rw [List.nil_append] at hmain
    exact hmain
  · rw [if_neg (fun h => hc h.1)]
    have h0 : t.tdiv 86400 = 0 := tdiv_eq_zero_of_lt ht (by omega)
    rw [if_neg (by simp [h0]), tmod_eq_self_of_lt ht (by omega)]
    exact dissect_hour_spec [] t ht (by simp)

lemma dissect_sec_ne_empty (out : String) (delta : Int) : dissect_sec out delta ≠ "" := by
  rw [dissect_sec]
  by_cases h : 0 < delta ∨ out = ""
  · rw [if_pos h]
    intro hc
    have hlen := congrArg String.length hc
    have h7 : (" second" : String).length = 7 := rfl
    simp [String.length_append, h7] at hlen
  · rw [if_neg h]
    push_neg at h
    exact h.2

lemma dissect_min_ne_empty (out : String) (delta : Int) (base : TimeBase) :
    dissect_min out delta base ≠ "" := by
  rw [dissect_min]
  split_ifs <;> exact dissect_sec_ne_empty _ _

lemma dissect_hour_ne_empty (out : String) (delta : Int) (base : TimeBase) :
    dissect_hour out delta base ≠ "" := by
  rw [dissect_hour]
  split_ifs <;> exact dissect_min_ne_empty _ _ _

lemma dissect_delta_ne_empty (delta : Int) (base : TimeBase) :
    dissect_delta delta base ≠ "" := by
  rw [dissect_delta]
  split_ifs <;> exact dissect_hour_ne_empty _ _ _

example : parse_delta "P0DT1H2M3S" = some 3723 := by decide
example : parse_delta "PT45S" = some 45 := by decide
example : parse_delta "PT1M" = some 60 := by decide
example : parse_delta "PT2M30S" = some 150 := by decide
example : parse_delta "P1DT2H" = some 93600 := by decide
example : parse_delta "PT" = none := by decide
example : parse_delta "XYZ" = none := by decide
example : parse_delta "PT1M2H" = none := by decide
example : parse_delta "PTxS" = none := by decide
example : parse_delta "" = none := by decide

example : toRfc3339Secs 0 = "1970-01-01T00:00:00Z" := by decide
example : toRfc3339Secs 1700000000 = "2023-11-14T22:13:20Z" := by decide
example : toRfc3339Secs 951867000 = "2000-02-29T23:30:00Z" := by decide

/-! ### Pagination lemmas -/

lemma processItems_no_filter (items : List Item) :
    ∀ acc, processItems none none acc items = acc ++ items.map Item.videoId := by
  induction items with
  | nil => intro acc; simp [processItems]
  | cons e rest ih =>
    intro acc
    simp [processItems, isBefore, isAfter, ih]

lemma idsUpTo_length (n : Nat) : (idsUpTo n).length = n := by
  simp [idsUpTo]

lemma idsUpTo_append (a b : Nat) :
    idsUpTo a ++ (List.range' a b).map toString = idsUpTo (a + b) := by
  have h := List.range'_append 0 a b 1
  simp only [Nat.zero_add, Nat.one_mul] at h
  rw [idsUpTo, idsUpTo, List.range_eq_range', List.range_eq_range', ← List.map_append,
    Nat.add_comm a b, ← h]

lemma lt_ceil_iff {n p : Nat} (hp : 0 < p) (k : Nat) :
    k < (n + p - 1) / p ↔ k * p < n := by
  rw [Nat.lt_iff_add_one_le, Nat.le_div_iff_mul_le hp, add_one_mul]
  omega

lemma paginate_synthetic_step (n p k fuel : Nat) (hp : 0 < p) (hk : k * p < n)
    (file : Option String) :
    paginate (syntheticApi n p) ⟨none, none, false⟩ (fuel + 1)
        (if k = 0 then none else some k) (idsUpTo (k * p)) file =
      if (k + 1) * p < n then
        paginate (syntheticApi n p) ⟨none, none, false⟩ fuel (some (k + 1))
          (idsUpTo ((k + 1) * p)) (write_out file (toString k))
      else
        (some (idsUpTo n), write_out file (toString k)) := by
  have htok : (if k = 0 then (none : Option Nat) else some k).getD 0 = k := by
    split_ifs with h
    · simp [h]
    · simp
  have hpages : (syntheticApi n p).pages (if k = 0 then (none : Option Nat) else some k) =
      ⟨toString k,
        (List.range' (k * p) (min p (n - k * p))).map (fun i => ⟨0, toString i⟩),
        if (k + 1) * p < n then some (k + 1) else none, n⟩ := by
    simp [syntheticApi, syntheticPages, htok]
  have hids : processItems none none (idsUpTo (k * p))
      ((List.range' (k * p) (min p (n - k * p))).map (fun i => (⟨0, toString i⟩ : Item))) =
      idsUpTo (k * p + min p (n - k * p)) := by
    rw [processItems_no_filter, List.map_map]
    exact idsUpTo_append (k * p) (min p (n - k * p))
  simp only [paginate, hpages]
  by_cases hlt : (k + 1) * p < n
  · have hmin : min p (n - k * p) = p := by
      rw [add_one_mul] at hlt
      omega
    rw [hmin] at hids
    have hlen : (k + 1) * p < n := hlt
    rw [add_one_mul] at hlen
    simp only [hids, if_pos hlt, hmin]
    have hlist : (List.range' (k * p) p).map (fun i => (⟨0, toString i⟩ : Item)) ≠ [] := by
      simp [List.range'_eq_nil]
      omega
    have hcond : (((List.range' (k * p) p).map (fun i => (⟨0, toString i⟩ : Item))).isEmpty ||
        (some (k + 1)).isNone || decide (n ≤ (idsUpTo (k * p + p)).length)) = false := by
      simp [List.isEmpty_iff, hlist, idsUpTo_length]
      omega
    rw [hcond]
    have hmul : k * p + p = (k + 1) * p := by rw [add_one_mul]
    simp [hmul]
  · have hmin : min p (n - k * p) = n - k * p := by
      rw [add_one_mul] at hlt
      omega
    have hids2 : k * p + (n - k * p) = n := by omega
    rw [hmin, hids2] at hids
    simp only [hmin, hids, if_neg hlt]
    simp [idsUpTo_length]

lemma paginate_synthetic_enough (n p : Nat) (hp : 0 < p) :
    ∀ fuel k, k * p < n → (n + p - 1) / p - k ≤ fuel →
      ∀ file, (paginate (syntheticApi n p) ⟨none, none, false⟩ fuel
          (if k = 0 then none else some k) (idsUpTo (k * p)) file).1 =
        some (idsUpTo n) := by
  intro fuel
  induction fuel with
  | zero =>
    intro k hk hle file
    have := (lt_ceil_iff hp k).2 hk
    omega
  | succ fuel ih =>
    intro k hk hle file
    rw [paginate_synthetic_step n p k fuel hp hk file]
    by_cases hlt : (k + 1) * p < n
    · rw [if_pos hlt]
      have hck : k + 1 < (n + p - 1) / p := (lt_ceil_iff hp (k + 1)).2 hlt
      have h2 := ih (k + 1) hlt (by omega) (write_out file (toString k))
      simpa using h2
    · rw [if_neg hlt]

lemma paginate_synthetic_short (n p : Nat) (hp : 0 < p) :
    ∀ fuel k, k * p < n → fuel < (n + p - 1) / p - k →
      ∀ file, (paginate (syntheticApi n p) ⟨none, none, false⟩ fuel
          (if k = 0 then none else some k) (idsUpTo (k * p)) file).1 = none := by
  intro fuel
  induction fuel with
  | zero =>
    intro k hk hlt file
    rfl
  | succ fuel ih =>
    intro k hk hlt file
    rw [paginate_synthetic_step n p k fuel hp hk file]
    have hck : k < (n + p - 1) / p := (lt_ceil_iff hp k).2 hk
    have hk1 : k + 1 < (n + p - 1) / p := by omega
    have hlt1 : (k + 1) * p < n := (lt_ceil_iff hp (k + 1)).1 hk1
    rw [if_pos hlt1]
    have h2 := ih (k + 1) hlt1 (by omega) (write_out file (toString k))
    simpa using h2

lemma paginate_synthetic_zero (p fuel : Nat) (file : Option String) :
    (paginate (syntheticApi 0 p) ⟨none, none, false⟩ (fuel + 1) none [] file).1 =
      some [] := by
  simp [paginate, syntheticApi, syntheticPages, processItems]

/-! ### File-state lemmas and stage-to-run glue -/

lemma write_out_isSome (file : Option String) (item : String) :
    (write_out file item).isSome = file.isSome := by
  cases file <;> rfl

lemma paginate_file_isSome {τ : Type} (api : Api τ) (cfg : Config) :
    ∀ fuel tok ids file, ((paginate api cfg fuel tok ids file).2).isSome = file.isSome := by
  intro fuel
  induction fuel with
  | zero => intro tok ids file; rfl
  | succ fuel ih =>
    intro tok ids file
    simp only [paginate]
    split
    · simp [write_out_isSome]
    · rw [ih, write_out_isSome]

lemma fetchVideos_file_isSome {τ : Type} (api : Api τ) :
    ∀ ids file, ((fetchVideos api ids file).2).isSome = file.isSome := by
  intro ids
  induction ids with
  | nil => intro file; rfl
  | cons id rest ih =>
    intro file
    simp only [fetchVideos]
    rcases hv : Video.new (api.video id).publishedAt (api.video id).title id
        (api.video id).duration with e | v
    · simp [write_out_isSome]
    · rcases hf : fetchVideos api rest (write_out file (api.video id).raw) with ⟨r, f3⟩
      have h3 := ih (write_out file (api.video id).raw)
      rw [hf, write_out_isSome] at h3
      rcases r with e | vs <;> simp [hf, h3]

lemma fetchVideos_error_raw {τ : Type} (api : Api τ) :
    ∀ ids file e f2, fetchVideos api ids file = (Except.error e, f2) →
      file.isSome = true → ∃ id ∈ ids, f2 = some (api.video id).raw := by
  intro ids
  induction ids with
  | nil =>
    intro file e f2 h _
    simp [fetchVideos] at h
  | cons id rest ih =>
    intro file e f2 h hs
    obtain ⟨c, hc⟩ := Option.isSome_iff_exists.1 hs
    subst hc
    simp only [fetchVideos] at h
    rcases hv : Video.new (api.video id).publishedAt (api.video id).title id
        (api.video id).duration with er | v
    · rw [hv] at h
      simp only [write_out] at h
      obtain ⟨he, hf⟩ := Prod.mk.injEq .. ▸ h
      exact ⟨id, by simp, by simp_all⟩
    · rw [hv] at h
      rcases hf : fetchVideos api rest (write_out (some c) (api.video id).raw) with ⟨r, f3⟩
      rw [hf] at h
      rcases r with er | vs
      · simp only at h
        obtain ⟨id2, hmem, heq⟩ := ih (write_out (some c) (api.video id).raw) er f3 hf rfl
        refine ⟨id2, by simp [hmem], ?_⟩
        have : f3 = f2 := by simpa using congrArg Prod.snd h
        rw [← this, heq]
      · simp at h

lemma run_noop {τ : Type} (api : Api τ) (cfg : Config) (fuel : Nat)
    (h : api.channel.totalResults ≠ 1) :
    run api cfg fuel =
      (RunOutcome.noop api.channel.totalResults, write_out (initFile cfg) api.channel.raw) := by
  rcases htr : api.channel.totalResults with _ | m
  · simp [run, htr]
  · rcases m with _ | m2
    · exact absurd htr h
    · simp [run, htr]

lemma run_video_error {τ : Type} (api : Api τ) (cfg : Config) (fuel : Nat) (pid : String)
    (ids : List String) (f1 : Option String) (e : String) (f2 : Option String)
    (h1 : api.channel.totalResults = 1) (h2 : api.channel.uploads = some pid)
    (hpag : paginate api cfg fuel none [] (write_out (initFile cfg) api.channel.raw) =
      (some ids, f1))
    (hfetch : fetchVideos api ids f1 = (Except.error e, f2)) :
    run api cfg fuel = (RunOutcome.failure e, f2) := by
  simp [run, h1, h2, hpag, hfetch]

lemma run_video_ok {τ : Type} (api : Api τ) (cfg : Config) (fuel : Nat) (pid : String)
    (ids : List String) (f1 : Option String) (videos : List Video) (f2 : Option String)
    (h1 : api.channel.totalResults = 1) (h2 : api.channel.uploads = some pid)
    (hpag : paginate api cfg fuel none [] (write_out (initFile cfg) api.channel.raw) =
      (some ids, f1))
    (hfetch : fetchVideos api ids f1 = (Except.ok videos, f2))
    (hout : cfg.output = true) :
    run api cfg fuel =
      (RunOutcome.success (summaryOf (totalOf videos)), some (csvContent videos)) := by
  have hsome : f2.isSome = true := by
    have hp2 := paginate_file_isSome api cfg fuel none []
      (write_out (initFile cfg) api.channel.raw)
    rw [hpag] at hp2
    have hf2 := fetchVideos_file_isSome api ids f1
    rw [hfetch] at hf2
    rw [hf2, hp2, write_out_isSome, initFile, hout]
    rfl
  obtain ⟨c, hc⟩ := Option.isSome_iff_exists.1 hsome
  subst hc
  simp [run, h1, h2, hpag, hfetch]

lemma foldl_add_delta (l : List Video) :
    ∀ acc : Int, l.foldl (fun a v => a + v.delta) acc = acc + (l.map Video.delta).sum := by
  induction l with
  | nil => intro acc; simp
  | cons v rest ih =>
    intro acc
    simp [ih, add_assoc]

/-! ### Claim theorems -/

/-- C1 (amended: the Rust `loop` body always runs at least once, so for
`N = 0` one page is fetched although `⌈N/P⌉ = 0`): the pagination loop
stops exactly at its three exit conditions (page empty, or no continuation
token, or collected count reached the reported total — encoded in
`paginate`); on a synthetic source with `n ≥ 1` items in pages of size
`p ≥ 1` and no date filter it terminates with any fuel of at least
`⌈n/p⌉` page fetches, collecting exactly the `n` identifiers, and does not
terminate within fewer than `⌈n/p⌉` fetches — hence it performs exactly
`⌈n/p⌉` fetches; with `n = 0` it performs one fetch and collects none. -/
theorem paginate_synthetic_pages :
    (∀ n p fuel : Nat, ∀ file : Option String, 0 < n → 0 < p →
      ((n + p - 1) / p ≤ fuel →
        (paginate (syntheticApi n p) ⟨none, none, false⟩ fuel none [] file).1 =
          some (idsUpTo n)) ∧
      (fuel < (n + p - 1) / p →
        (paginate (syntheticApi n p) ⟨none, none, false⟩ fuel none [] file).1 = none)) ∧
    (∀ n : Nat, (idsUpTo n).length = n) ∧
    (∀ p fuel : Nat, ∀ file : Option String,
      (paginate (syntheticApi 0 p) ⟨none, none, false⟩ (fuel + 1) none [] file).1 =
        some []) := by
  refine ⟨?_, idsUpTo_length, fun p fuel file => paginate_synthetic_zero p fuel file⟩
  intro n p fuel file hn hp
  have hids0 : idsUpTo (0 * p) = [] := by simp [idsUpTo]
  constructor
  · intro hfuel
    have h := paginate_synthetic_enough n p hp fuel 0 (by simpa using hn) (by omega) file
    rw [if_pos rfl, hids0] at h
    exact h
  · intro hfuel
    have h := paginate_synthetic_short n p hp fuel 0 (by simpa using hn) (by omega) file
    rw [if_pos rfl, hids0] at h
    exact h

/-- C1 counterexample at `N = 0`, `P = 1`: the claimed fetch count
`⌈N/P⌉ = 0` is wrong — the loop has not terminated after 0 fetches, and it
terminates after 1 fetch. -/
theorem paginate_synthetic_pages_counterexample :
    (0 + 1 - 1) / 1 = 0 ∧
    (paginate (syntheticApi 0 1) ⟨none, none, false⟩ 0 none [] none).1 = none ∧
    (paginate (syntheticApi 0 1) ⟨none, none, false⟩ 1 none [] none).1 = some [] := by
  exact ⟨rfl, rfl, by decide⟩

/-- Witness for C1 at `n = 5`, `p = 2`: three pages suffice. -/
theorem paginate_synthetic_pages_witness :
    0 < 5 ∧ 0 < 2 ∧ (5 + 2 - 1) / 2 ≤ 3 ∧
    (paginate (syntheticApi 5 2) ⟨none, none, false⟩ 3 none [] none).1 =
      some (idsUpTo 5) :=
  ⟨by decide, by decide, by decide,
    (paginate_synthetic_pages.1 5 2 3 none (by decide) (by decide)).1 (by decide)⟩

/-- C5: a page item is skipped — leaving the accumulator, and hence the
collected count used by the termination check, unchanged — exactly when a
configured start bound is strictly later than its publish timestamp or a
configured end bound is strictly earlier; otherwise its video id is
appended. With both bounds configured the item survives exactly on the
inclusive interval `[start, end]`; an absent bound never excludes. -/
theorem processItems_filtering :
    (∀ (s e : Option Int) (acc : List String) (it : Item) (rest : List Item),
      processItems s e acc (it :: rest) =
        if isBefore s it.publishedAt || isAfter e it.publishedAt then
          processItems s e acc rest
        else
          processItems s e (acc ++ [it.videoId]) rest) ∧
    (∀ a b d : Int, (isBefore (some a) d || isAfter (some b) d) = false ↔ a ≤ d ∧ d ≤ b) ∧
    (∀ d : Int, isBefore none d = false ∧ isAfter none d = false) := by
  refine ⟨?_, ?_, fun d => ⟨rfl, rfl⟩⟩
  · intro s e acc it rest
    by_cases h1 : isBefore s it.publishedAt
    · simp [processItems, h1]
    · by_cases h2 : isAfter e it.publishedAt <;> simp [processItems, h1, h2]
  · intro a b d
    simp [isBefore, isAfter]

/-- C3: `Video::new` fails with the error naming the duration field
whenever the duration string does not parse and never falls back to a
default span; a constructed record's span is exactly the parsed value of
its stored raw duration string; and a failing construction during the
video stage fails the whole run with that same error. -/
theorem video_new_duration (date : Int) (title id duration : String) :
    (parse_delta duration = none →
      Video.new date title id duration = Except.error "Could not parse 'duration' field") ∧
    (∀ v, Video.new date title id duration = Except.ok v →
      parse_delta v.duration = some v.delta ∧ v.duration = duration) ∧
    (∀ (τ : Type) (api : Api τ) (cfg : Config) (fuel : Nat) (pid : String)
        (ids : List String) (f1 : Option String) (e : String) (f2 : Option String),
      api.channel.totalResults = 1 → api.channel.uploads = some pid →
      paginate api cfg fuel none [] (write_out (initFile cfg) api.channel.raw) =
        (some ids, f1) →
      fetchVideos api ids f1 = (Except.error e, f2) →
      run api cfg fuel = (RunOutcome.failure e, f2)) := by
  refine ⟨?_, ?_, ?_⟩
  · intro h
    rw [Video.new, h]
  · intro v hv
    rw [Video.new] at hv
    rcases hpd : parse_delta duration with _ | dl
    · rw [hpd] at hv
      simp at hv
    · rw [hpd] at hv
      simp only [Except.ok.injEq] at hv
      subst hv
      exact ⟨hpd, rfl⟩
  · intro τ api cfg fuel pid ids f1 e f2 h1 h2 hpag hfetch
    exact run_video_error api cfg fuel pid ids f1 e f2 h1 h2 hpag hfetch

/-- Witness for C3: a run over `apiBadDuration` (one video, duration
`"XYZ"`) fails with the duration error, the file holding that video's raw
response. -/
theorem video_new_duration_witness :
    run apiBadDuration ⟨none, none, true⟩ 1 =
      (RunOutcome.failure "Could not parse 'duration' field", some "vraw") :=
  (video_new_duration 0 "t" "v" "XYZ").2.2 Nat apiBadDuration ⟨none, none, true⟩ 1
    "UUpid" ["vid0"] (some "praw") "Could not parse 'duration' field" (some "vraw")
    rfl rfl rfl rfl

/-- C4: a channel lookup reporting any result count other than exactly 1
makes the run a terminal no-op (warning outcome, not a failure, no CSV —
the file still holds the raw channel response); with exactly 1 result the
run never takes the no-op exit. -/
theorem channel_resolution (τ : Type) (api : Api τ) (cfg : Config) (fuel : Nat) :
    (api.channel.totalResults ≠ 1 →
      run api cfg fuel =
        (RunOutcome.noop api.channel.totalResults,
          write_out (initFile cfg) api.channel.raw)) ∧
    (api.channel.totalResults = 1 →
      ∀ m f, run api cfg fuel ≠ (RunOutcome.noop m, f)) := by
  constructor
  · exact run_noop api cfg fuel
  · intro h1 m f heq
    simp only [run, h1] at heq
    rcases hu : api.channel.uploads with _ | pid <;> rw [hu] at heq
    · simp at heq
    · rcases hpag : paginate api cfg fuel none [] (write_out (initFile cfg) api.channel.raw)
        with ⟨o, f2⟩
      rw [hpag] at heq
      rcases o with _ | ids
      · simp at heq
      · dsimp only at heq
        rcases hf : fetchVideos api ids f2 with ⟨r, f3⟩
        rw [hf] at heq
        rcases r with e | vs
        · simp at heq
        · rcases f3 with _ | c <;> simp at heq

/-- Witness for C4: `apiZeroResults` reports 0 results; the run is a no-op
with the raw channel response left in the file. -/
theorem channel_resolution_witness :
    run apiZeroResults ⟨none, none, true⟩ 3 = (RunOutcome.noop 0, some "chraw") :=
  (channel_resolution Nat apiZeroResults ⟨none, none, true⟩ 3).1 (by decide)

/-- C6: with ceiling = days the formatter renders the ten listed spans as
claimed; in general every non-negative span renders exactly as the
spec-side rules say (zero-valued non-terminal components omitted, single
space joins, pluralization exactly when the count is not 1, seconds
emitted when nonzero or when all larger components were zero), and for
every span and every ceiling the result is never the empty string. -/
theorem dissect_delta_days_rendering :
    dissect_delta 0 TimeBase.days = "0 seconds" ∧
    dissect_delta 1 TimeBase.days = "1 second" ∧
    dissect_delta 59 TimeBase.days = "59 seconds" ∧
    dissect_delta 60 TimeBase.days = "1 minute" ∧
    dissect_delta 61 TimeBase.days = "1 minute 1 second" ∧
    dissect_delta 3600 TimeBase.days = "1 hour" ∧
    dissect_delta 3661 TimeBase.days = "1 hour 1 minute 1 second" ∧
    dissect_delta 86400 TimeBase.days = "1 day" ∧
    dissect_delta 90061 TimeBase.days = "1 day 1 hour 1 minute 1 second" ∧
    dissect_delta 604800 TimeBase.days = "7 days" ∧
    (∀ t : Int, 0 ≤ t → dissect_delta t TimeBase.days = spec_render_days t) ∧
    (∀ (t : Int) (base : TimeBase), dissect_delta t base ≠ "") :=
  ⟨by decide, by decide, by decide, by decide, by decide, by decide, by decide,
    by decide, by decide, by decide, dissect_delta_days_eq_spec, dissect_delta_ne_empty⟩

/-- Witness for C6 at `t = 90061`. -/
theorem dissect_delta_days_rendering_witness :
    0 ≤ (90061 : Int) ∧ dissect_delta 90061 TimeBase.days = spec_render_days 90061 :=
  ⟨by decide,
    dissect_delta_days_rendering.2.2.2.2.2.2.2.2.2.2.1 90061 (by decide)⟩

/-- C7 counterexample: for a total of one day the summary renders
`"24 hours"` (the code passes `TimeBase::Hours` at `lib.rs` line 230), not
the day-ceiling rendering `"1 day"` the claim asserts. -/
theorem aggregation_summary_counterexample :
    summaryOf (totalOf [⟨0, "t", "v", "P1DT0S", 86400⟩]) =
      "Sum total: 86400 seconds, or 24 hours" ∧
    dissect_delta (totalOf [⟨0, "t", "v", "P1DT0S", 86400⟩]) TimeBase.days = "1 day" ∧
    ("Sum total: 86400 seconds, or 24 hours" : String) ≠
      "Sum total: 86400 seconds, or 1 day" :=
  ⟨by decide, by decide, by decide⟩

/-- C7 (amended: the decomposition ceiling the code passes is
`TimeBase::Hours`, not days): the aggregation sums every record's span into
one total (zero when the set is empty); the summary reports the raw second
count, and exactly when the total is at least one minute it additionally
reports the mixed-unit decomposition with ceiling hours. -/
theorem aggregation_summary (videos : List Video) :
    totalOf [] = 0 ∧
    totalOf videos = (videos.map Video.delta).sum ∧
    (60 ≤ totalOf videos →
      summaryOf (totalOf videos) =
        "Sum total: " ++ toString (totalOf videos) ++ " seconds, or " ++
          dissect_delta (totalOf videos) TimeBase.hours) ∧
    (totalOf videos < 60 →
      summaryOf (totalOf videos) =
        "Sum total: " ++ toString (totalOf videos) ++ " seconds") := by
  refine ⟨rfl, by simpa using foldl_add_delta videos 0, ?_, ?_⟩
  · intro h
    rw [summaryOf, if_pos h]
    have hy : ∀ x : String, (" seconds" : String) ++ (", or " ++ x) = " seconds, or " ++ x :=
      fun x => by
        rw [← String.append_assoc, show (" seconds" : String) ++ ", or " = " seconds, or " from rfl]
    simp [String.append_assoc, hy]
  · intro h
    rw [summaryOf, if_neg (by omega)]
    simp [String.append_assoc]

/-- Witness for C7 at a 120-second record set. -/
theorem aggregation_summary_witness :
    60 ≤ totalOf [⟨0, "a", "b", "PT2M", 120⟩] ∧
    summaryOf (totalOf [⟨0, "a", "b", "PT2M", 120⟩]) =
      "Sum total: " ++ toString (totalOf [⟨0, "a", "b", "PT2M", 120⟩]) ++
        " seconds, or " ++
        dissect_delta (totalOf [⟨0, "a", "b", "PT2M", 120⟩]) TimeBase.hours :=
  ⟨by decide, (aggregation_summary [⟨0, "a", "b", "PT2M", 120⟩]).2.2.1 (by decide)⟩

/-- C8: a successful run with a sink configured leaves the file holding
exactly the header line followed by one line per video in fetch order;
each row is the RFC3339 UTC timestamp (second precision, `Z` suffix), the
raw title copied verbatim, the video id, the raw duration string and the
parsed span's second count, joined by commas. -/
theorem run_csv (τ : Type) (api : Api τ) (cfg : Config) (fuel : Nat) (pid : String)
    (ids : List String) (f1 : Option String) (videos : List Video) (f2 : Option String) :
    (api.channel.totalResults = 1 → api.channel.uploads = some pid →
      paginate api cfg fuel none [] (write_out (initFile cfg) api.channel.raw) =
        (some ids, f1) →
      fetchVideos api ids f1 = (Except.ok videos, f2) → cfg.output = true →
      run api cfg fuel =
        (RunOutcome.success (summaryOf (totalOf videos)), some (csvContent videos))) ∧
    csvHeader = "#publishedAt,title,videoId,duration,duration_seconds" ∧
    csvContent videos = joinLines (csvHeader :: videos.map csvRow) ∧
    (∀ v : Video, csvRow v = toRfc3339Secs v.date ++ "," ++ v.title ++ "," ++ v.id ++
      "," ++ v.duration ++ "," ++ toString v.delta) :=
  ⟨fun h1 h2 hpag hfetch hout =>
      run_video_ok api cfg fuel pid ids f1 videos f2 h1 h2 hpag hfetch hout,
    rfl, rfl, fun _ => rfl⟩

/-- Witness for C8: the one-video `apiGood` run succeeds and writes the CSV
for its single record. -/
theorem run_csv_witness :
    run apiGood ⟨none, none, true⟩ 1 =
      (RunOutcome.success (summaryOf (totalOf [⟨86400, "title0", "vid0", "PT2M30S", 150⟩])),
        some (csvContent [⟨86400, "title0", "vid0", "PT2M30S", 150⟩])) :=
  (run_csv Nat apiGood ⟨none, none, true⟩ 1 "UUpid" ["vid0"] (some "praw")
    [⟨86400, "title0", "vid0", "PT2M30S", 150⟩] (some "vraw")).1 rfl rfl rfl rfl rfl

/-- C10: the diagnostic sink and the CSV output are one and the same
optional file (one `Option` field of the model state): every raw-response
write truncates the file and replaces its entire content; on a successful
run the file is finally rewritten with the CSV, so the last raw response is
not retained; when the video stage fails, the run fails and the file is
left holding the raw response of the failing video fetch. -/
theorem output_file_single (τ : Type) (api : Api τ) (cfg : Config) (fuel : Nat)
    (pid : String) (ids : List String) (f1 : Option String) :
    (∀ prior item : String, write_out (some prior) item = some item) ∧
    (∀ item : String, write_out none item = none) ∧
    (∀ videos f2, api.channel.totalResults = 1 → api.channel.uploads = some pid →
      paginate api cfg fuel none [] (write_out (initFile cfg) api.channel.raw) =
        (some ids, f1) →
      fetchVideos api ids f1 = (Except.ok videos, f2) → cfg.output = true →
      run api cfg fuel =
        (RunOutcome.success (summaryOf (totalOf videos)), some (csvContent videos))) ∧
    (∀ e f2, api.channel.totalResults = 1 → api.channel.uploads = some pid →
      paginate api cfg fuel none [] (write_out (initFile cfg) api.channel.raw) =
        (some ids, f1) →
      fetchVideos api ids f1 = (Except.error e, f2) → cfg.output = true →
      run api cfg fuel = (RunOutcome.failure e, f2) ∧
        ∃ id ∈ ids, f2 = some (api.video id).raw) := by
  refine ⟨fun prior item => rfl, fun item => rfl, ?_, ?_⟩
  · intro videos f2 h1 h2 hpag hfetch hout
    exact run_video_ok api cfg fuel pid ids f1 videos f2 h1 h2 hpag hfetch hout
  · intro e f2 h1 h2 hpag hfetch hout
    refine ⟨run_video_error api cfg fuel pid ids f1 e f2 h1 h2 hpag hfetch, ?_⟩
    have hs1 : f1.isSome = true := by
      have hp2 := paginate_file_isSome api cfg fuel none []
        (write_out (initFile cfg) api.channel.raw)
      rw [hpag] at hp2
      rw [hp2, write_out_isSome, initFile, hout]
      rfl
    exact fetchVideos_error_raw api ids f1 e f2 hfetch hs1

/-- Witness for C10: the failing `apiBadDuration` run leaves the raw
response of the failing video fetch in the file. -/
theorem output_file_single_witness :
    (run apiBadDuration ⟨none, none, true⟩ 1 =
      (RunOutcome.failure "Could not parse 'duration' field", some "vraw")) ∧
    ∃ id ∈ ["vid0"], (some "vraw" : Option String) = some (apiBadDuration.video id).raw :=
  (output_file_single Nat apiBadDuration ⟨none, none, true⟩ 1 "UUpid" ["vid0"]
    (some "praw")).2.2.2 "Could not parse 'duration' field" (some "vraw")
    rfl rfl rfl rfl rfl

end YtApiVideosum
